import Mathlib

/-!
Verification of the ffai repository's command-safety gateway and step
orchestrator against its natural-language specification.

The Python sources are shallowly embedded over `List Char`:
* `ffsimple/tools/secure_shell.py`: `_trim_markdown`, `check_root_user`,
  `classify_command`, `check_command_safety`, `execute_shell`;
* `ffai/ffai.py`: `execute_plan`.

Modelling conventions:
* strings are `List Char` (`Str`); Python's `str.strip`/`str.split`/
  `str.lower` are modelled on the ASCII range (`pyIsSpace` is the ASCII
  whitespace class, `pyLowerChar` lowers ASCII letters);
* `os.geteuid()` is an explicit `euid : Nat` parameter;
* the child process, the wall clock and the external Decider agent are
  oracles (`ProcOutcome`, elapsed times as `Rat`, `DeciderOutcome`);
* observable side effects (gate decisions, process spawns, kills) are
  returned as an explicit `Event` trace.
-/

namespace FFAI

/-- Strings as lists of characters. -/
abbrev Str := List Char

/-- String literal to `Str`. -/
def strL (s : String) : Str := s.toList

/-- Python's whitespace class (`str.split()` / `str.strip()` separators),
on the ASCII range: space, tab, newline, carriage return, vertical tab,
form feed. -/
def pyIsSpace (c : Char) : Bool :=
  c == ' ' || c == '\t' || c == '\n' || c == '\r' || c == '\x0b' || c == '\x0c'

/-- Python `str.strip()`: drop leading and trailing whitespace. -/
def pyStrip (l : Str) : Str :=
  ((l.dropWhile pyIsSpace).reverse.dropWhile pyIsSpace).reverse

/-- Python `str.lower()` on one character (ASCII range: `A`–`Z` map to
`a`–`z`, everything else is unchanged). -/
def pyLowerChar (c : Char) : Char :=
  match c with
  | 'A' => 'a' | 'B' => 'b' | 'C' => 'c' | 'D' => 'd' | 'E' => 'e' | 'F' => 'f'
  | 'G' => 'g' | 'H' => 'h' | 'I' => 'i' | 'J' => 'j' | 'K' => 'k' | 'L' => 'l'
  | 'M' => 'm' | 'N' => 'n' | 'O' => 'o' | 'P' => 'p' | 'Q' => 'q' | 'R' => 'r'
  | 'S' => 's' | 'T' => 't' | 'U' => 'u' | 'V' => 'v' | 'W' => 'w' | 'X' => 'x'
  | 'Y' => 'y' | 'Z' => 'z'
  | c => c

/-- Python `str.lower()` (ASCII model). -/
def pyLowerStr (l : Str) : Str := l.map pyLowerChar

/-- `pyStartsWith p l` is Python's `l.startswith(p)`. -/
def pyStartsWith : Str → Str → Bool
  | [], _ => true
  | _ :: _, [] => false
  | p :: ps, c :: cs => p == c && pyStartsWith ps cs

/-- Worker for `pySplit`: `acc` holds the characters of the token being
scanned, in reverse. -/
def pySplitGo : Str → Str → List Str
  | [], acc => if acc.isEmpty then [] else [acc.reverse]
  | c :: rest, acc =>
    if pyIsSpace c then
      if acc.isEmpty then pySplitGo rest [] else acc.reverse :: pySplitGo rest []
    else
      pySplitGo rest (c :: acc)

/-- Python `str.split()` with no separator: split on runs of whitespace,
producing no empty tokens. -/
def pySplit (l : Str) : List Str := pySplitGo l []

/-- `SAFE_COMMANDS` from `secure_shell.py`. -/
def SAFE_COMMANDS : List Str :=
  [strL "ffmpeg", strL "ffprobe", strL "mediainfo", strL "mkvmerge", strL "mkvextract",
   strL "mp4box",
   strL "ls", strL "cat", strL "head", strL "tail", strL "grep", strL "find",
   strL "file", strL "stat", strL "wc", strL "du",
   strL "pwd", strL "cd", strL "tree",
   strL "exiftool", strL "identify",
   strL "echo", strL "date", strL "uname", strL "whoami", strL "which", strL "type"]

/-- `DANGEROUS_COMMANDS` from `secure_shell.py`. -/
def DANGEROUS_COMMANDS : List Str :=
  [strL "rm", strL "rmdir", strL "unlink", strL "shred",
   strL "mv", strL "chmod", strL "chown", strL "chgrp", strL "touch",
   strL "apt", strL "apt-get", strL "yum", strL "dnf", strL "pacman",
   strL "pip", strL "npm", strL "yarn",
   strL "curl", strL "wget", strL "scp", strL "rsync",
   strL "kill", strL "pkill", strL "killall", strL "systemctl", strL "service",
   strL "tar", strL "zip", strL "unzip", strL "gzip", strL "bzip2"]

/-- `BLOCKED_COMMANDS` from `secure_shell.py`. -/
def BLOCKED_COMMANDS : List Str :=
  [strL "sudo", strL "su", strL "doas",
   strL "dd", strL "mkfs", strL "fdisk", strL "parted", strL "gdisk",
   strL "mount", strL "umount",
   strL "modprobe", strL "insmod", strL "rmmod", strL "kmod",
   strL "shutdown", strL "reboot", strL "halt", strL "poweroff", strL "init",
   strL "mkswap", strL "swapon", strL "swapoff"]

/-- The membership test used by the three classification loops:
`base_command == name or base_command.startswith(name + ' ')`. -/
def listHit (base : Str) (name : Str) : Bool :=
  base == name || pyStartsWith (name ++ [' ']) base

/-- The lookup part of `classify_command`: the three `for` loops over
`BLOCKED_COMMANDS`, `DANGEROUS_COMMANDS` and `SAFE_COMMANDS` (first
match wins, in that precedence), applied to the already-resolved base
command. -/
def classifyBase (base : Str) : Str × Str :=
  match BLOCKED_COMMANDS.find? (listHit base) with
    | some b =>
      (strL "BLOCKED",
       strL "Command '" ++ b ++ strL "' is blocked for security reasons (system-critical operation)")
    | none =>
    match DANGEROUS_COMMANDS.find? (listHit base) with
    | some d =>
      let tail :=
        if [strL "rm", strL "rmdir", strL "unlink", strL "shred"].contains d then
          strL "(deletion operation)"
        else if [strL "chmod", strL "chown", strL "chgrp"].contains d then
          strL "(permission modification)"
        else if [strL "mv"].contains d then
          strL "(file move/rename operation)"
        else if [strL "apt", strL "apt-get", strL "yum", strL "dnf", strL "pacman",
                 strL "pip", strL "npm", strL "yarn"].contains d then
          strL "(package management)"
        else if [strL "kill", strL "pkill", strL "killall", strL "systemctl",
                 strL "service"].contains d then
          strL "(process management)"
        else
          strL "(potentially dangerous operation)"
      (strL "DANGEROUS", strL "Command '" ++ d ++ strL "' requires approval " ++ tail)
    | none =>
    match SAFE_COMMANDS.find? (listHit base) with
    | some _ => (strL "SAFE", [])
    | none =>
      (strL "DANGEROUS", strL "Unknown command '" ++ base ++ strL "' requires approval for safety")

/-- `classify_command` from `secure_shell.py`: classify a command string as
`"SAFE"`, `"DANGEROUS"` or `"BLOCKED"`, returning `(category, reason)`.
The base command is the first whitespace token of
`command.strip().split()`, lowercased; a `sudo`/`su`/`doas` first token
with a second token present is replaced by the (lowercased) second
token; the resolved base is then looked up by `classifyBase`. -/
def classify_command (command : Str) : Str × Str :=
  match pySplit (pyStrip command) with
  | [] => (strL "SAFE", [])
  | w :: restParts =>
    let base0 := pyLowerStr w
    classifyBase
      (if (base0 == strL "sudo" || base0 == strL "su" || base0 == strL "doas")
          && !restParts.isEmpty then
        pyLowerStr (restParts.headD [])
      else base0)

/-- Index of the last newline character of a string, if any. -/
def lastNewlineIdx : Str → Option Nat
  | [] => none
  | c :: rest =>
    match lastNewlineIdx rest with
    | some j => some (j + 1)
    | none => if c == '\n' then some 0 else none

/-- Whether the last character of a string is a newline. -/
def lastIsNewline (l : Str) : Bool :=
  match l.getLast? with
  | some c => c == '\n'
  | none => false

/-- Scanner for the first substitution of `_trim_markdown`:
`re.sub(r'^```(?:bash|sh|shell)?\s*\n?', '', command, flags=re.MULTILINE)`.

`als` records whether the current position is a line start (`^` with
`re.MULTILINE`: position 0 or right after a newline).  At a line start,
a match consumes the three backticks, then the first alternative of
`bash|sh|shell` that fits (so `sh` wins over `shell`, exactly as in
Python's ordered alternation), then the maximal whitespace run (`\s*`
is greedy and subsumes the trailing `\n?`).  `re.sub` replaces every
match, scanning left to right and resuming after each match; whether
the resume position is a line start depends on the last consumed
character.  `fuel` only bounds the recursion; each step consumes at
least one character, so the wrappers pass `length + 1` and the fuel
never runs out. -/
def sub1Go : Nat → Bool → Str → Str
  | 0, _, l => l
  | _ + 1, _, [] => []
  | fuel + 1, als, c :: rest =>
    if als && pyStartsWith (strL "```") (c :: rest) then
      let t := rest.drop 2
      let t2 := if pyStartsWith (strL "bash") t then t.drop 4
                else if pyStartsWith (strL "sh") t then t.drop 2
                else t
      let w := t2.takeWhile pyIsSpace
      sub1Go fuel (lastIsNewline w) (t2.drop w.length)
    else
      c :: sub1Go fuel (c == '\n') rest

/-- First substitution of `_trim_markdown` (leading-fence pattern,
multiline, all occurrences). -/
def sub1 (l : Str) : Str := sub1Go (l.length + 1) true l

/-- Attempted match of `\n?```\s*$` (with `re.MULTILINE`) at the start of
`t`, where `pre` backtick/newline characters were already consumed.
After the backticks, `\s*` backtracks greedily until `$` holds: if the
whitespace run reaches the end of the string the whole run is consumed;
otherwise the run is followed by a non-whitespace character and the
longest usable extent ends just before the run's last newline; if the
run has no newline the match attempt fails (and so does retrying with
`\n?` empty, since the position then holds a newline, not a backtick). -/
def sub2Tail (t : Str) (pre : Nat) : Option Nat :=
  let w := t.takeWhile pyIsSpace
  if (t.drop w.length).isEmpty then some (pre + w.length)
  else
    match lastNewlineIdx w with
    | some j => some (pre + j)
    | none => none

/-- Length consumed by a match of `\n?```\s*$` starting at this position,
if any (`\n?` is greedy, so a leading newline is consumed when the
backticks follow it). -/
def sub2Match (l : Str) : Option Nat :=
  if pyStartsWith (strL "\n```") l then sub2Tail (l.drop 4) 4
  else if pyStartsWith (strL "```") l then sub2Tail (l.drop 3) 3
  else none

/-- Scanner for the second substitution of `_trim_markdown`:
`re.sub(r'\n?```\s*$', '', command, flags=re.MULTILINE)`, replacing every
match and resuming at each match end (a zero-width `$` leaves the
following newline unconsumed). -/
def sub2Go : Nat → Str → Str
  | 0, l => l
  | _ + 1, [] => []
  | fuel + 1, c :: rest =>
    match sub2Match (c :: rest) with
    | some k => sub2Go fuel ((c :: rest).drop k)
    | none => c :: sub2Go fuel rest

/-- Second substitution of `_trim_markdown` (trailing-fence pattern,
multiline, all occurrences). -/
def sub2 (l : Str) : Str := sub2Go (l.length + 1) l

/-- `_trim_markdown` from `secure_shell.py`: the two multiline
substitutions followed by `str.strip()`. -/
def trimMarkdown (l : Str) : Str := pyStrip (sub2 (sub1 l))

/-- `check_root_user` from `secure_shell.py`; `euid` models `os.geteuid()`.
Returns `(is_root, warning_message)`. -/
def check_root_user (command : Str) (euid : Nat) : Bool × Str :=
  let command_lower := pyStrip (pyLowerStr command)
  if pyStartsWith (strL "sudo ") command_lower || pyStartsWith (strL "su ") command_lower
      || pyStartsWith (strL "doas ") command_lower then
    (true, strL "🚨 ROOT WARNING: This command will run with elevated privileges!")
  else if euid == 0 then
    (true, strL "🚨 ROOT WARNING: You are currently running as root user!")
  else
    (false, [])

/-- The gate's verdict: the `(requires_approval, is_blocked, warning_message)`
tuple returned by `check_command_safety`. -/
structure GateResult where
  requiresApproval : Bool
  isBlocked : Bool
  warning : Str
deriving DecidableEq

/-- `check_command_safety` from `secure_shell.py`: combine `check_root_user`
and `classify_command` into the gate verdict. -/
def check_command_safety (command : Str) (euid : Nat) : GateResult :=
  let r := check_root_user command euid
  let c := classify_command command
  if c.1 == strL "BLOCKED" then
    let warning := strL "⛔ BLOCKED: " ++ c.2
    ⟨false, true, if r.1 then warning ++ '\n' :: r.2 else warning⟩
  else if c.1 == strL "DANGEROUS" then
    let warning := strL "⚠️ REQUIRES APPROVAL: " ++ c.2
    ⟨true, false, if r.1 then warning ++ '\n' :: r.2 else warning⟩
  else
    if r.1 then ⟨true, false, r.2⟩ else ⟨false, false, []⟩

/-- The `ShellResponse` Pydantic model of `secure_shell.py`
(`execution_time` as an exact rational, supplied by the clock oracle). -/
structure ShellResponse where
  command : Str
  stdout : Str
  stderr : Str
  returncode : Int
  success : Bool
  execution_time : Rat
  approval_required : Bool
  security_warning : Str
  blocked : Bool
deriving DecidableEq

/-- Oracle for what happens once `subprocess.Popen` has spawned the child
process: normal completion, `subprocess.TimeoutExpired` inside
`communicate` (with the output drained after the kill), or an exception
reaching the outer handler (spawn failure).  Each outcome carries the
elapsed wall time `time.time() - start_time` observed at that exit. -/
inductive ProcOutcome
  | completed (stdout stderr : Str) (code : Int) (elapsed : Rat)
  | timedOut (pout perr : Str) (elapsed : Rat)
  | raised (msg : Str) (elapsed : Rat)

/-- Observable side effects of the embedded code, in order: a gate
decision, a `Popen` spawn of a command line through the shell, a
`process.kill()`, or a `subprocess.run` spawn of an argv list
(`ffai.run_subprocess`). -/
inductive Event
  | gateChecked (command : Str) (requiresApproval isBlocked : Bool)
  | spawned (command : Str)
  | killedProc
  | spawnedArgv (argv : List Str)
deriving DecidableEq

/-- Whether an event is a gate decision. -/
def Event.isGate : Event → Bool
  | .gateChecked _ _ _ => true
  | _ => false

/-- Whether an event is a process spawn (either kind). -/
def Event.isSpawn : Event → Bool
  | .spawned _ => true
  | .spawnedArgv _ => true
  | _ => false

/-- The command argument of `execute_shell`: a string, or a list joined
with single spaces (`" ".join(command)`). -/
def toCommandStr : Str ⊕ List Str → Str
  | .inl s => s
  | .inr parts => List.intercalate [' '] parts

/-- The timeout annotation written to `stderr` on
`subprocess.TimeoutExpired`:
`f"Command timed out after {timeout} seconds\n"`. -/
def timeoutNote (timeout : Rat) : Str :=
  strL "Command timed out after " ++ (toString timeout).toList ++ strL " seconds\n"

/-- `execute_shell` from `secure_shell.py`, returning the `ShellResponse`
and the trace of observable events.  The command is normalized
(`" ".join` for lists), sanitized with `_trim_markdown`, and gated with
`check_command_safety` before anything else; a blocked command returns
the synthesized response without spawning.  Otherwise the command line
is spawned through the shell and the result is shaped from the process
outcome; `subprocess.TimeoutExpired` is caught (kill, drain, sentinel
`-1`), and any other exception is caught by the outer handler — no
exception escapes. -/
def execute_shell (command : Str ⊕ List Str) (timeout : Rat) (euid : Nat)
    (outcome : ProcOutcome) : ShellResponse × List Event :=
  let cleaned := trimMarkdown (toCommandStr command)
  let g := check_command_safety cleaned euid
  if g.isBlocked then
    (⟨cleaned, [],
      strL "Command execution blocked for security reasons.\n" ++ g.warning,
      -2, false, 0, false, g.warning, true⟩,
     [.gateChecked cleaned g.requiresApproval true])
  else
    match outcome with
    | .completed out err code elapsed =>
      (⟨cleaned, out, err, code, code == 0, elapsed, g.requiresApproval, g.warning, false⟩,
       [.gateChecked cleaned g.requiresApproval false, .spawned cleaned])
    | .timedOut pout perr elapsed =>
      (⟨cleaned, pout, timeoutNote timeout ++ perr, -1, false, elapsed,
        g.requiresApproval, g.warning, false⟩,
       [.gateChecked cleaned g.requiresApproval false, .spawned cleaned, .killedProc])
    | .raised msg elapsed =>
      (⟨cleaned, [], strL "Execution error: " ++ msg, -1, false, elapsed,
        g.requiresApproval, g.warning, false⟩,
       [.gateChecked cleaned g.requiresApproval false])

/-- The `Step` Pydantic model of `ffai.py`. -/
structure Step where
  idx : Int
  description : Str
  command : List Str
  input : Option Str := none
  output : Option Str := none
  note : Option Str := none
deriving DecidableEq

/-- The `FFResult` Pydantic model of `ffai.py`. -/
structure FFResult where
  step_idx : Int
  command : List Str
  returncode : Int
  stdout : Str
  stderr : Str
  output_path : Option Str
  output_size : Option Nat
deriving DecidableEq

/-- Outcome of one Decider round trip in `execute_plan` (the
`Agent(...)`/`run_sync` call followed by `json.loads(run.text)`),
abstracted as an oracle: the call itself raised (there is no handler for
this in `execute_plan`), the reply text failed to parse as JSON (the
`except` branch substitutes a continue decision), or a parsed decision
with its `action` string and the validly-parsed `new_steps`. -/
inductive DeciderOutcome
  | callRaised (msg : Str)
  | unparsable
  | parsed (action : Str) (newSteps : List Step)

/-- Whether a Decider outcome is an uncaught exception from the call. -/
def DeciderOutcome.isRaised : DeciderOutcome → Bool
  | .callRaised _ => true
  | _ => false

/-- Python's `list[:k]` for an `int` bound `k` (negative bounds count from
the end, clamped at 0). -/
def pySliceTo (l : List Step) (k : Int) : List Step :=
  if 0 ≤ k then l.take k.toNat else l.take ((l.length + k).toNat)

/-- `["ffmpeg", "-y"] + step.command`, the argv list `execute_plan` runs
for a step. -/
def fullCmd (s : Step) : List Str := strL "ffmpeg" :: strL "-y" :: s.command

/-- Whether `execute_plan`'s input precondition fails for a step:
`if step.input:` is truthy (a non-empty declared path) and
`Path(step.input).exists()` is false. -/
def inputMissing (fs : Str → Bool) (s : Step) : Bool :=
  match s.input with
  | some p => !p.isEmpty && !fs p
  | none => false

/-- The `FFResult` `execute_plan` records for one executed step, given the
filesystem oracles `fs` (path existence) and `size` (`stat().st_size`,
`none` when it raises) and the process oracle `runProc` (returncode,
stdout, stderr of `run_subprocess`).  `Path.resolve()` is modelled as the
identity on the path text. -/
def stepResult (fs : Str → Bool) (size : Str → Option Nat)
    (runProc : List Str → Int × Str × Str) (step : Step) : FFResult :=
  let r := runProc (fullCmd step)
  let out_path :=
    match step.output with
    | some o => if !o.isEmpty && fs o then some o else none
    | none => none
  ⟨step.idx, fullCmd step, r.1, r.2.1, r.2.2, out_path, out_path.bind size⟩

/-- The step loop of `execute_plan` from `ffai.py`.

`iter` is the remainder of the iterator obtained from the original
`plan.steps` list when the `for` loop started: rebinding the `plan.steps`
attribute inside the loop does *not* affect this iterator — Python's
`for` iterates the list object captured at loop entry.  `attr` is the
current value of the `plan.steps` attribute, `n` counts Decider round
trips, `acc` accumulates results in reverse.

Per step: a truthy declared input that does not exist breaks out of the
loop, returning the results so far; otherwise the step's argv is spawned
and its result recorded, and the Decider is consulted.  An exception
from the Decider call propagates (`.error`).  An unparsable reply
defaults to continue.  A parsed decision with `action == "replan"`
rebinds `attr` to `attr[:step.idx] + newSteps + [s for s in attr if
s.idx > step.idx]`; any other action continues.  Returns the outcome
(results and final `plan.steps` value) and the spawn trace. -/
def execute_plan_go (fs : Str → Bool) (size : Str → Option Nat)
    (runProc : List Str → Int × Str × Str) (decider : Nat → DeciderOutcome) :
    List Step → List Step → Nat → List FFResult →
    Except Str (List FFResult × List Step) × List Event
  | [], attr, _, acc => (.ok (acc.reverse, attr), [])
  | step :: iterRest, attr, n, acc =>
    if inputMissing fs step then (.ok (acc.reverse, attr), [])
    else
      let res := stepResult fs size runProc step
      let ev := Event.spawnedArgv (fullCmd step)
      match decider n with
      | .callRaised msg => (.error msg, [ev])
      | .unparsable =>
        let r := execute_plan_go fs size runProc decider iterRest attr (n + 1) (res :: acc)
        (r.1, ev :: r.2)
      | .parsed act newSteps =>
        if act == strL "replan" then
          let remaining := attr.filter (fun s => step.idx < s.idx)
          let attr2 := pySliceTo attr step.idx ++ newSteps ++ remaining
          let r := execute_plan_go fs size runProc decider iterRest attr2 (n + 1) (res :: acc)
          (r.1, ev :: r.2)
        else
          let r := execute_plan_go fs size runProc decider iterRest attr (n + 1) (res :: acc)
          (r.1, ev :: r.2)

/-- `execute_plan` from `ffai.py` on a plan with the given steps
(modelled with `pydantic_ai` available, so the Decider is consulted
after every executed step). -/
def execute_plan (fs : Str → Bool) (size : Str → Option Nat)
    (runProc : List Str → Int × Str × Str) (decider : Nat → DeciderOutcome)
    (steps : List Step) : Except Str (List FFResult × List Step) × List Event :=
  execute_plan_go fs size runProc decider steps steps 0 []

instance {ε α : Type} [DecidableEq ε] [DecidableEq α] : DecidableEq (Except ε α) := fun x y =>
  match x, y with
  | .ok a, .ok b => decidable_of_iff (a = b) (by simp)
  | .error e, .error f => decidable_of_iff (e = f) (by simp)
  | .ok _, .error _ => isFalse (by simp)
  | .error _, .ok _ => isFalse (by simp)

/-- A three-step plan with indices 1, 2, 3 (concrete scenario). -/
def stepA : Step := ⟨1, strL "first pass", [strL "-i", strL "a.mp4", strL "a1.mp4"], none, none, none⟩

/-- Second step of the concrete scenario. -/
def stepB : Step := ⟨2, strL "second pass", [strL "-i", strL "a1.mp4", strL "a2.mp4"], none, none, none⟩

/-- Third step of the concrete scenario. -/
def stepC : Step := ⟨3, strL "third pass", [strL "-i", strL "a2.mp4", strL "a3.mp4"], none, none, none⟩

/-- The replacement step (idx 2) supplied by a Replan decision in the
concrete scenario. -/
def newStepB : Step := ⟨2, strL "revised second pass", [strL "-i", strL "a1.mp4", strL "b2.mp4"], none, none, none⟩

/-- Filesystem oracle on which every path exists. -/
def fsAll : Str → Bool := fun _ => true

/-- Size oracle that reports no size. -/
def sizeNone : Str → Option Nat := fun _ => none

/-- Process oracle on which every command exits 0 with empty output. -/
def runOk : List Str → Int × Str × Str := fun _ => (0, [], [])

/-- Decider oracle: Replan with `[newStepB]` after the first executed
step, Continue afterwards. -/
def replanDecider : Nat → DeciderOutcome :=
  fun n => if n == 0 then .parsed (strL "replan") [newStepB] else .parsed (strL "continue") []

/-- Decider oracle that always answers Continue. -/
def contDecider : Nat → DeciderOutcome := fun _ => .parsed (strL "continue") []

/-- Decider oracle whose round trip always raises (e.g. a timeout). -/
def raiseDecider : Nat → DeciderOutcome := fun _ => .callRaised (strL "TimeoutError")

/-- The backtick character. -/
def tick : Char := (strL "`").headD ' '

/-- A step whose declared input `in.mp4` exists on `fsOnlyIn`. -/
def stepIn : Step :=
  ⟨1, strL "probe", [strL "-i", strL "in.mp4", strL "mid.mp4"], some (strL "in.mp4"),
   none, none⟩

/-- A step whose declared input `missing.mp4` does not exist on
`fsOnlyIn`. -/
def stepMissing : Step :=
  ⟨2, strL "uses missing file", [strL "-i", strL "missing.mp4", strL "out.mp4"],
   some (strL "missing.mp4"), none, none⟩

/-- Filesystem oracle on which only `in.mp4` exists. -/
def fsOnlyIn : Str → Bool := fun p => p == strL "in.mp4"

/-- Modelled from the spec's words (§4.1 Sanitizer): "Strips a single
leading fence of the form 'triple-backtick, optional language tag,
optional newline' and a single trailing 'optional newline,
triple-backtick', tolerating surrounding whitespace.  Performs no other
normalization."  Used to compare the specified sanitizer with the
implemented one. -/
def specTrimMarkdown (l : Str) : Str :=
  let s := pyStrip l
  let s1 :=
    if pyStartsWith (strL "```") s then
      let t := s.drop 3
      let t2 := if pyStartsWith (strL "bash") t then t.drop 4
                else if pyStartsWith (strL "shell") t then t.drop 5
                else if pyStartsWith (strL "sh") t then t.drop 2
                else t
      if pyStartsWith (strL "\n") t2 then t2.drop 1 else t2
    else s
  let s3 :=
    if (s1.reverse.take 3).reverse == strL "```" then
      let t := s1.take (s1.length - 3)
      if (t.reverse.take 1).reverse == strL "\n" then t.take (t.length - 1) else t
    else s1
  pyStrip s3

theorem pyIsSpace_pyLowerChar (c : Char) : pyIsSpace (pyLowerChar c) = pyIsSpace c := by
  unfold pyLowerChar
  split <;> rfl

theorem pyStartsWith_iff (p l : Str) : pyStartsWith p l = true ↔ ∃ t, l = p ++ t := by
  induction p generalizing l with
  | nil => simp [pyStartsWith]
  | cons a ps ih =>
    cases l with
    | nil => simp [pyStartsWith]
    | cons c cs =>
      rw [pyStartsWith, Bool.and_eq_true, beq_iff_eq, ih]
      constructor
      · rintro ⟨rfl, t, rfl⟩
        exact ⟨t, rfl⟩
      · rintro ⟨t, ht⟩
        obtain ⟨h1, h2⟩ := List.cons.inj ht
        exact ⟨h1.symm, t, h2⟩

theorem mem_of_pyStartsWith {p l : Str} (h : pyStartsWith p l = true) {a : Char}
    (ha : a ∈ p) : a ∈ l := by
  obtain ⟨t, rfl⟩ := (pyStartsWith_iff p l).1 h
  exact List.mem_append_left t ha

theorem pyStrip_eq (l : Str) :
    pyStrip l = List.rdropWhile pyIsSpace (l.dropWhile pyIsSpace) := rfl

theorem mem_pyStrip {a : Char} {l : Str} (h : a ∈ pyStrip l) : a ∈ l := by
  rw [pyStrip_eq] at h
  have hs1 : List.Sublist (List.rdropWhile pyIsSpace (l.dropWhile pyIsSpace))
      (l.dropWhile pyIsSpace) :=
    (List.rdropWhile_prefix _ _).sublist
  exact List.Sublist.mem (List.Sublist.mem h hs1) (List.dropWhile_sublist _)

theorem pyStrip_idem (l : Str) : pyStrip (pyStrip l) = pyStrip l := by
  rw [pyStrip_eq, pyStrip_eq l]
  have hzz : (l.dropWhile pyIsSpace).dropWhile pyIsSpace = l.dropWhile pyIsSpace :=
    List.dropWhile_idempotent _ _
  have hA : (List.rdropWhile pyIsSpace (l.dropWhile pyIsSpace)).dropWhile pyIsSpace =
      List.rdropWhile pyIsSpace (l.dropWhile pyIsSpace) := by
    cases hc : List.rdropWhile pyIsSpace (l.dropWhile pyIsSpace) with
    | nil => simp
    | cons b bs =>
      have hpre : List.rdropWhile pyIsSpace (l.dropWhile pyIsSpace) <+: l.dropWhile pyIsSpace :=
        List.rdropWhile_prefix _ _
      rw [hc] at hpre
      obtain ⟨t, ht⟩ := hpre
      have hpb : pyIsSpace b = false := by
        by_contra hcon
        rw [Bool.not_eq_false] at hcon
        have hd := hzz
        rw [← ht] at hd
        rw [List.cons_append, List.dropWhile_cons, hcon] at hd
        simp only [if_true] at hd
        have hlen := congrArg List.length hd
        have hle := (@List.dropWhile_sublist Char (bs ++ t) pyIsSpace).length_le
        simp only [List.length_cons] at hlen
        omega
      rw [List.dropWhile_cons, hpb]
      simp
  rw [hA, List.rdropWhile_idempotent]

theorem sub1Go_eq_self : ∀ (fuel : Nat) (als : Bool) (l : Str), tick ∉ l →
    sub1Go fuel als l = l := by
  intro fuel
  induction fuel with
  | zero => intro als l _; rfl
  | succ n ih =>
    intro als l h
    cases l with
    | nil => rfl
    | cons c rest =>
      have hcond : (als && pyStartsWith (strL "```") (c :: rest)) = false := by
        cases hps : pyStartsWith (strL "```") (c :: rest) with
        | false => simp
        | true => exact absurd (mem_of_pyStartsWith hps (by decide)) h
      have hrest : tick ∉ rest := fun hm => h (List.mem_cons_of_mem _ hm)
      simp only [sub1Go, hcond, Bool.false_eq_true, if_false]
      rw [ih (c == '\n') rest hrest]

theorem sub2Match_eq_none {l : Str} (h : tick ∉ l) : sub2Match l = none := by
  have h1 : pyStartsWith (strL "\n```") l = false := by
    cases hps : pyStartsWith (strL "\n```") l with
    | false => rfl
    | true => exact absurd (mem_of_pyStartsWith hps (by decide)) h
  have h2 : pyStartsWith (strL "```") l = false := by
    cases hps : pyStartsWith (strL "```") l with
    | false => rfl
    | true => exact absurd (mem_of_pyStartsWith hps (by decide)) h
  simp [sub2Match, h1, h2]

theorem sub2Go_eq_self : ∀ (fuel : Nat) (l : Str), tick ∉ l → sub2Go fuel l = l := by
  intro fuel
  induction fuel with
  | zero => intro l _; rfl
  | succ n ih =>
    intro l h
    cases l with
    | nil => rfl
    | cons c rest =>
      have hrest : tick ∉ rest := fun hm => h (List.mem_cons_of_mem _ hm)
      simp only [sub2Go, sub2Match_eq_none h]
      rw [ih rest hrest]

theorem trimMarkdown_eq_pyStrip {l : Str} (h : tick ∉ l) : trimMarkdown l = pyStrip l := by
  unfold trimMarkdown sub1 sub2
  rw [sub1Go_eq_self _ _ _ h, sub2Go_eq_self _ _ h]

theorem tick_not_mem_pyStrip {l : Str} (h : tick ∉ l) : tick ∉ pyStrip l :=
  fun hm => h (mem_pyStrip hm)

example :
    classify_command (strL "sudo apt-get install pkg") =
      (strL "DANGEROUS", strL "Command 'apt-get' requires approval (package management)") := by
  decide

example : (check_command_safety (strL "sudo ls") 1000) =
    ⟨true, false, strL "🚨 ROOT WARNING: This command will run with elevated privileges!"⟩ := by
  decide

example : (check_command_safety (strL "reboot") 1000).isBlocked = true := by decide

example : classify_command (strL "") = (strL "SAFE", []) := by decide

example : classify_command (strL "RM x") = classify_command (strL "rm x") := by decide

example : trimMarkdown (strL "```bash\ncmd\n```") = strL "cmd" := by decide

example : trimMarkdown (strL "```\n ```zzz") = strL "```zzz" := by decide

example : trimMarkdown (strL "```zzz") = strL "zzz" := by decide

example : trimMarkdown (strL "echo hi\n```\necho bye\n```") = strL "echo hi\necho bye" := by
  decide

example : trimMarkdown (strL "```\nfoo\n```\nbar\n```") = strL "foo\nbar" := by decide

example : trimMarkdown (strL "```shell\nls\n```") = strL "ell\nls" := by decide

example : trimMarkdown (strL "  echo hi  ") = strL "echo hi" := by decide

example : trimMarkdown (strL "a\n``` \nx") = strL "a\nx" := by decide

example : trimMarkdown (strL "a\n```\nb\n```") = strL "a\nb" := by decide

example : trimMarkdown (strL "x\n``` \nok") = strL "x\nok" := by decide

example : trimMarkdown (strL "```\n```x\n```") = strL "x" := by decide

example : trimMarkdown (strL "``````") = strL "" := by decide

example : trimMarkdown (strL " ```") = strL "" := by decide

example : trimMarkdown (strL "```x```\nfoo") = strL "x\nfoo" := by decide

example : trimMarkdown (strL "```\t\n ```zzz") = strL "```zzz" := by decide

example : trimMarkdown (strL "\n```x") = strL "x" := by decide

example : trimMarkdown (strL "x\n```  ") = strL "x" := by decide

example : specTrimMarkdown (strL "```bash\ncmd\n```") = strL "cmd" := by decide

example : specTrimMarkdown (strL "echo hi\n```\necho bye\n```") =
    strL "echo hi\n```\necho bye" := by decide

/-- Claim C1 (code bug): on `"sudo apt-get install pkg"` the code resolves
the `sudo` prefix to the sub-command `apt-get` and classifies it
DANGEROUS, so the gate reports `isBlocked = false`; likewise `"sudo ls"`
is not blocked (its resolved base is the SAFE `ls`).  The claim, the
spec (§4.2 step 3) and the repository's own tests
(`test_blocked_sudo_commands`, `test_blocked_command_is_blocked`,
`test_safe_command_with_sudo_requires_approval`) all require BLOCKED for
a privilege-escalation prefix, so the code contradicts its own tests. -/
theorem sudo_prefix_resolves_to_subcommand :
    classify_command (strL "sudo apt-get install pkg") =
      (strL "DANGEROUS", strL "Command 'apt-get' requires approval (package management)") ∧
    (check_command_safety (strL "sudo apt-get install pkg") 1000).isBlocked = false ∧
    (classify_command (strL "sudo rm -rf /")).1 = strL "DANGEROUS" ∧
    (check_command_safety (strL "sudo ls") 1000).isBlocked = false := by
  decide

/-- Claim C2 (code bug): for the plan `[stepA, stepB, stepC]` (indices
1, 2, 3) with a Replan decision after step 1 carrying
`newSteps = [newStepB]`, the loop executes the original `stepB` and
`stepC` (the `for` loop iterates the list object captured at entry, so
the rebinding of `plan.steps` never affects iteration and `newStepB` is
never spawned), and the final `plan.steps` value is
`[stepA, newStepB, stepB, stepC]` — the original step 2 is kept, not
discarded.  The claim (and the code's own `"Replace remaining steps"` /
`"Plan updated"` messages) require the remaining plan to be exactly
`[newStepB, stepC]`. -/
theorem replan_keeps_original_iteration :
    execute_plan fsAll sizeNone runOk replanDecider [stepA, stepB, stepC] =
      (.ok ([⟨1, fullCmd stepA, 0, [], [], none, none⟩,
             ⟨2, fullCmd stepB, 0, [], [], none, none⟩,
             ⟨3, fullCmd stepC, 0, [], [], none, none⟩],
            [stepA, newStepB, stepB, stepC]),
       [.spawnedArgv (fullCmd stepA), .spawnedArgv (fullCmd stepB),
        .spawnedArgv (fullCmd stepC)]) ∧
    [.spawnedArgv (fullCmd stepA), .spawnedArgv (fullCmd stepB),
     .spawnedArgv (fullCmd stepC)] ≠
      [Event.spawnedArgv (fullCmd stepA), .spawnedArgv (fullCmd newStepB),
       .spawnedArgv (fullCmd stepC)] ∧
    [stepA, newStepB, stepB, stepC] ≠ [stepA, newStepB, stepC] := by
  decide

/-- Claim C3, counterexample: the ffai orchestrator spawns a step's
command with no classification gate anywhere on the path — on a concrete
one-step plan the event trace contains a spawn and no gate decision,
refuting "no execution path reaches process creation without first
passing through the classification gate". -/
theorem ffai_spawns_without_gate :
    (execute_plan fsAll sizeNone runOk contDecider [stepA]).2.any Event.isSpawn = true ∧
    (execute_plan fsAll sizeNone runOk contDecider [stepA]).2.any Event.isGate = false := by
  decide

/-- Claim C3, amended: within the secure-shell engine the invariant does
hold — every spawn event in an `execute_shell` trace is preceded by a
gate decision (the command is classified and gated before
`subprocess.Popen` on every path). -/
theorem execute_shell_gates_before_spawn (cmd : Str ⊕ List Str) (timeout : Rat)
    (euid : Nat) (outcome : ProcOutcome) (i : Nat) (c : Str)
    (h : (execute_shell cmd timeout euid outcome).2.get? i = some (.spawned c)) :
    ∃ j, j < i ∧ ∃ cc ra ib,
      (execute_shell cmd timeout euid outcome).2.get? j = some (.gateChecked cc ra ib) := by
  have hhead : ∃ ra ib, (execute_shell cmd timeout euid outcome).2.get? 0 =
      some (.gateChecked (trimMarkdown (toCommandStr cmd)) ra ib) := by
    unfold execute_shell
    by_cases hb : (check_command_safety (trimMarkdown (toCommandStr cmd)) euid).isBlocked = true
    · simp [hb]
    · cases outcome <;> simp [hb]
  have hi : i = 1 := by
    unfold execute_shell at h
    by_cases hb : (check_command_safety (trimMarkdown (toCommandStr cmd)) euid).isBlocked = true
    · simp [hb] at h
      match i with
      | 0 => simp at h
      | n + 1 => simp at h
    · cases outcome with
      | completed out err code elapsed =>
        simp [hb] at h
        match i with
        | 0 => simp at h
        | 1 => rfl
        | n + 2 => simp at h
      | timedOut pout perr elapsed =>
        simp [hb] at h
        match i with
        | 0 => simp at h
        | 1 => rfl
        | 2 => simp at h
        | n + 3 => simp at h
      | raised msg elapsed =>
        simp [hb] at h
        match i with
        | 0 => simp at h
        | n + 1 => simp at h
  obtain ⟨ra, ib, h0⟩ := hhead
  exact ⟨0, by omega, _, ra, ib, h0⟩

/-- Witness for `execute_shell_gates_before_spawn` at a concrete input. -/
theorem execute_shell_gates_before_spawn_witness :
    (execute_shell (.inl (strL "echo ok")) 30 1000 (.completed [] [] 0 1)).2.get? 1 =
      some (.spawned (strL "echo ok")) ∧
    ∃ j, j < 1 ∧ ∃ cc ra ib,
      (execute_shell (.inl (strL "echo ok")) 30 1000 (.completed [] [] 0 1)).2.get? j =
        some (.gateChecked cc ra ib) := by
  refine ⟨by decide, ?_⟩
  have h : (execute_shell (.inl (strL "echo ok")) 30 1000 (.completed [] [] 0 1)).2.get? 1 =
      some (.spawned (trimMarkdown (toCommandStr (.inl (strL "echo ok"))))) := by decide
  exact execute_shell_gates_before_spawn _ 30 1000 _ 1 _ h

/-- Claim C4: whenever the sanitized command is gated as blocked,
`execute_shell` returns the synthesized blocked response — `blocked =
true`, the fixed sentinel returncode `-2`, `success = false`, empty
stdout, `execution_time = 0` — and the trace contains no spawn: no
process is created, whatever the process oracle would have done. -/
theorem execute_shell_blocked_no_spawn (cmd : Str ⊕ List Str) (timeout : Rat)
    (euid : Nat) (outcome : ProcOutcome)
    (h : (check_command_safety (trimMarkdown (toCommandStr cmd)) euid).isBlocked = true) :
    execute_shell cmd timeout euid outcome =
      (⟨trimMarkdown (toCommandStr cmd), [],
        strL "Command execution blocked for security reasons.\n" ++
          (check_command_safety (trimMarkdown (toCommandStr cmd)) euid).warning,
        -2, false, 0, false,
        (check_command_safety (trimMarkdown (toCommandStr cmd)) euid).warning, true⟩,
       [.gateChecked (trimMarkdown (toCommandStr cmd))
          (check_command_safety (trimMarkdown (toCommandStr cmd)) euid).requiresApproval
          true]) := by
  unfold execute_shell
  simp [h]

/-- Witness for `execute_shell_blocked_no_spawn`: `"reboot"` is gated as
blocked, and the engine synthesizes the blocked response without
spawning. -/
theorem execute_shell_blocked_no_spawn_witness :
    (check_command_safety (trimMarkdown (toCommandStr (.inl (strL "reboot")))) 1000).isBlocked
        = true ∧
    execute_shell (.inl (strL "reboot")) 30 1000 (.completed [] [] 0 1) =
      (⟨trimMarkdown (toCommandStr (.inl (strL "reboot"))), [],
        strL "Command execution blocked for security reasons.\n" ++
          (check_command_safety (trimMarkdown (toCommandStr (.inl (strL "reboot")))) 1000).warning,
        -2, false, 0, false,
        (check_command_safety (trimMarkdown (toCommandStr (.inl (strL "reboot")))) 1000).warning,
        true⟩,
       [.gateChecked (trimMarkdown (toCommandStr (.inl (strL "reboot"))))
          (check_command_safety (trimMarkdown (toCommandStr (.inl (strL "reboot")))) 1000).requiresApproval
          true]) :=
  ⟨by decide, execute_shell_blocked_no_spawn (.inl (strL "reboot")) 30 1000 _ (by decide)⟩

/-- Claim C7: when the child process exceeds the timeout, the engine
kills it (the trace ends with a kill event), drains the output produced
so far into the response, and returns returncode `-1`, `success =
false`, stderr prefixed with the timeout message, and `execution_time`
equal to the elapsed wall time to termination.  The
`subprocess.TimeoutExpired` is caught inside `execute_shell`
(the embedding returns a `ShellResponse` on this path rather than an
error), so the timeout never escapes as an exception. -/
theorem execute_shell_timeout_result (cmd : Str ⊕ List Str) (timeout : Rat)
    (euid : Nat) (pout perr : Str) (elapsed : Rat)
    (h : (check_command_safety (trimMarkdown (toCommandStr cmd)) euid).isBlocked = false) :
    execute_shell cmd timeout euid (.timedOut pout perr elapsed) =
      (⟨trimMarkdown (toCommandStr cmd), pout, timeoutNote timeout ++ perr, -1, false, elapsed,
        (check_command_safety (trimMarkdown (toCommandStr cmd)) euid).requiresApproval,
        (check_command_safety (trimMarkdown (toCommandStr cmd)) euid).warning, false⟩,
       [.gateChecked (trimMarkdown (toCommandStr cmd))
          (check_command_safety (trimMarkdown (toCommandStr cmd)) euid).requiresApproval false,
        .spawned (trimMarkdown (toCommandStr cmd)), .killedProc]) := by
  unfold execute_shell
  simp [h]

/-- Witness for `execute_shell_timeout_result` on `"sleep 60"` (an
unknown, hence DANGEROUS, command: gated not-blocked, so it spawns and
can time out). -/
theorem execute_shell_timeout_result_witness :
    (check_command_safety (trimMarkdown (toCommandStr (.inl (strL "sleep 60")))) 1000).isBlocked
        = false ∧
    execute_shell (.inl (strL "sleep 60")) 30 1000 (.timedOut (strL "partly") [] 30) =
      (⟨trimMarkdown (toCommandStr (.inl (strL "sleep 60"))), strL "partly",
        timeoutNote 30 ++ [], -1, false, 30,
        (check_command_safety (trimMarkdown (toCommandStr (.inl (strL "sleep 60")))) 1000).requiresApproval,
        (check_command_safety (trimMarkdown (toCommandStr (.inl (strL "sleep 60")))) 1000).warning,
        false⟩,
       [.gateChecked (trimMarkdown (toCommandStr (.inl (strL "sleep 60"))))
          (check_command_safety (trimMarkdown (toCommandStr (.inl (strL "sleep 60")))) 1000).requiresApproval
          false,
        .spawned (trimMarkdown (toCommandStr (.inl (strL "sleep 60")))), .killedProc]) :=
  ⟨by decide, execute_shell_timeout_result (.inl (strL "sleep 60")) 30 1000 (strL "partly") [] 30 (by decide)⟩

/-- Claim C8, counterexample: when the Decider round trip raises (the
timeout failure mode), `execute_plan` has no handler — on a concrete
two-step plan the run aborts with the escaped exception after step 1
and step 2 never spawns, refuting "neither failure mode aborts the plan
or escapes the orchestrator". -/
theorem decider_exception_aborts_plan :
    execute_plan fsAll sizeNone runOk raiseDecider [stepA, stepB] =
      (.error (strL "TimeoutError"), [.spawnedArgv (fullCmd stepA)]) := by
  decide

/-- Claim C8, amended: when the Decider's reply is unparsable the
orchestrator substitutes Continue and proceeds to the next step with the
plan unchanged (this is the only handled failure mode; an exception from
the round trip itself propagates, see the counterexample). -/
theorem unparsable_reply_defaults_to_continue (fs : Str → Bool)
    (size : Str → Option Nat) (runProc : List Str → Int × Str × Str)
    (decider : Nat → DeciderOutcome) (step : Step) (iterRest attr : List Step)
    (n : Nat) (acc : List FFResult)
    (h1 : decider n = .unparsable) (h2 : inputMissing fs step = false) :
    execute_plan_go fs size runProc decider (step :: iterRest) attr n acc =
      ((execute_plan_go fs size runProc decider iterRest attr (n + 1)
          (stepResult fs size runProc step :: acc)).1,
       .spawnedArgv (fullCmd step) ::
         (execute_plan_go fs size runProc decider iterRest attr (n + 1)
            (stepResult fs size runProc step :: acc)).2) := by
  simp [execute_plan_go, h1, h2]

/-- Witness for `unparsable_reply_defaults_to_continue` at a concrete
plan and Decider. -/
theorem unparsable_reply_defaults_to_continue_witness :
    (fun _ : Nat => DeciderOutcome.unparsable) 0 = DeciderOutcome.unparsable ∧
    inputMissing fsAll stepA = false ∧
    execute_plan_go fsAll sizeNone runOk (fun _ => .unparsable) [stepA] [stepA] 0 [] =
      ((execute_plan_go fsAll sizeNone runOk (fun _ => .unparsable) [] [stepA] 1
          [stepResult fsAll sizeNone runOk stepA]).1,
       .spawnedArgv (fullCmd stepA) ::
         (execute_plan_go fsAll sizeNone runOk (fun _ => .unparsable) [] [stepA] 1
            [stepResult fsAll sizeNone runOk stepA]).2) :=
  ⟨rfl, by decide,
   unparsable_reply_defaults_to_continue fsAll sizeNone runOk _ stepA [] [stepA] 0 []
     rfl (by decide)⟩

/-- Claim C5, counterexample: the two substitutions run with
`re.MULTILINE` and replace every occurrence, so a fence in the interior
of the text is removed as well — on
`"echo hi\n```\necho bye\n```"` the implementation returns
`"echo hi\necho bye"`, while a sanitizer that removes at most one
leading and one trailing fence and changes nothing else
(`specTrimMarkdown`, written from the spec's words) keeps the interior
fence line. -/
theorem trimMarkdown_strips_interior_fence :
    trimMarkdown (strL "echo hi\n```\necho bye\n```") = strL "echo hi\necho bye" ∧
    specTrimMarkdown (strL "echo hi\n```\necho bye\n```") = strL "echo hi\n```\necho bye" ∧
    trimMarkdown (strL "echo hi\n```\necho bye\n```") ≠
      specTrimMarkdown (strL "echo hi\n```\necho bye\n```") := by
  decide

/-- Claim C5, amended: the sanitizer removes fences at every line
boundary of the text, not only an outermost pair (the multiline
substitutions are global); apart from fence removal it only strips
surrounding whitespace — on every backtick-free string it equals
`str.strip()`, and on a text with three fence lines all three are
removed. -/
theorem trimMarkdown_global_line_fences :
    (∀ l : Str, tick ∉ l → trimMarkdown l = pyStrip l) ∧
    trimMarkdown (strL "```\nfoo\n```\nbar\n```") = strL "foo\nbar" :=
  ⟨fun _ h => trimMarkdown_eq_pyStrip h, by decide⟩

/-- Witness for `trimMarkdown_global_line_fences` at a concrete
backtick-free input. -/
theorem trimMarkdown_global_line_fences_witness :
    tick ∉ strL " echo hi " ∧
    trimMarkdown (strL " echo hi ") = pyStrip (strL " echo hi ") :=
  ⟨by decide, trimMarkdown_global_line_fences.1 (strL " echo hi ") (by decide)⟩

/-- Claim C6, counterexample: `trimMarkdown` is not idempotent — on
`"```\n ```zzz"` the first pass eats the first fence together with the
following whitespace (leaving `"```zzz"`, whose fence is no longer at a
removable position for the same pass), and a second application strips
it further to `"zzz"`. -/
theorem trimMarkdown_not_idempotent :
    trimMarkdown (trimMarkdown (strL "```\n ```zzz")) ≠
      trimMarkdown (strL "```\n ```zzz") := by
  decide

/-- Claim C6, amended: `trimMarkdown("```bash\ncmd\n```") = "cmd"` holds,
and `trimMarkdown` is idempotent on every backtick-free string (it then
equals whitespace stripping, which is idempotent); it is not idempotent
in general (see the counterexample). -/
theorem trimMarkdown_idempotent_on_fence_free :
    trimMarkdown (strL "```bash\ncmd\n```") = strL "cmd" ∧
    ∀ l : Str, tick ∉ l → trimMarkdown (trimMarkdown l) = trimMarkdown l := by
  refine ⟨by decide, fun l h => ?_⟩
  rw [trimMarkdown_eq_pyStrip h, trimMarkdown_eq_pyStrip (tick_not_mem_pyStrip h),
    pyStrip_idem]

/-- Witness for `trimMarkdown_idempotent_on_fence_free` at a concrete
backtick-free input. -/
theorem trimMarkdown_idempotent_on_fence_free_witness :
    tick ∉ strL "ffmpeg -i a.mp4 b.mp4" ∧
    trimMarkdown (trimMarkdown (strL "ffmpeg -i a.mp4 b.mp4")) =
      trimMarkdown (strL "ffmpeg -i a.mp4 b.mp4") :=
  ⟨by decide,
   trimMarkdown_idempotent_on_fence_free.2 (strL "ffmpeg -i a.mp4 b.mp4") (by decide)⟩

theorem execute_plan_go_missing (fs : Str → Bool) (size : Str → Option Nat)
    (runProc : List Str → Int × Str × Str) (decider : Nat → DeciderOutcome)
    (bad : Step) (post : List Step) (hbad : inputMissing fs bad = true) :
    ∀ (pre : List Step) (attr : List Step) (n : Nat) (acc : List FFResult),
      (∀ s ∈ pre, inputMissing fs s = false) →
      (∀ k, k < pre.length → (decider (n + k)).isRaised = false) →
      ∃ attrFin,
        execute_plan_go fs size runProc decider (pre ++ bad :: post) attr n acc =
          (.ok (acc.reverse ++ pre.map (stepResult fs size runProc), attrFin),
           pre.map (fun s => Event.spawnedArgv (fullCmd s))) := by
  intro pre
  induction pre with
  | nil =>
    intro attr n acc _ _
    refine ⟨attr, ?_⟩
    simp [execute_plan_go, hbad]
  | cons s pre ih =>
    intro attr n acc hok hraise
    have hs : inputMissing fs s = false := hok s (List.mem_cons_self s pre)
    have hok' : ∀ x ∈ pre, inputMissing fs x = false :=
      fun x hx => hok x (List.mem_cons_of_mem _ hx)
    have hraise' : ∀ k, k < pre.length → (decider (n + 1 + k)).isRaised = false := by
      intro k hk
      have h2 := hraise (k + 1) (by simpa using Nat.succ_lt_succ hk)
      have h3 : n + 1 + k = n + (k + 1) := by omega
      rw [h3]
      exact h2
    have hnr : (decider n).isRaised = false := by
      have := hraise 0 (by simp)
      simpa using this
    cases hd : decider n with
    | callRaised msg =>
      rw [hd] at hnr
      simp [DeciderOutcome.isRaised] at hnr
    | unparsable =>
      obtain ⟨attrFin, heq⟩ :=
        ih attr (n + 1) (stepResult fs size runProc s :: acc) hok' hraise'
      refine ⟨attrFin, ?_⟩
      simp only [List.cons_append, execute_plan_go, hs, hd, Bool.false_eq_true, if_false,
        List.append_eq]
      rw [heq]
      simp [List.reverse_cons, List.append_assoc]
    | parsed act ns =>
      by_cases hact : (act == strL "replan") = true
      · obtain ⟨attrFin, heq⟩ :=
          ih (pySliceTo attr s.idx ++ ns ++ attr.filter (fun q => s.idx < q.idx)) (n + 1)
            (stepResult fs size runProc s :: acc) hok' hraise'
        refine ⟨attrFin, ?_⟩
        simp only [List.cons_append, execute_plan_go, hs, hd, hact, Bool.false_eq_true,
          if_false, if_true, List.append_eq]
        rw [heq]
        simp [List.reverse_cons, List.append_assoc]
      · obtain ⟨attrFin, heq⟩ :=
          ih attr (n + 1) (stepResult fs size runProc s :: acc) hok' hraise'
        refine ⟨attrFin, ?_⟩
        rw [Bool.not_eq_true] at hact
        simp only [List.cons_append, execute_plan_go, hs, hd, hact, Bool.false_eq_true,
          if_false, List.append_eq]
        rw [heq]
        simp [List.reverse_cons, List.append_assoc]

/-- Claim C9: if a step declares a (non-empty) input path that does not
exist, `execute_plan` aborts the whole plan at that step: the engine is
never invoked for it or for any later step (the spawn trace is exactly
the earlier steps' spawns) and the returned result list holds exactly
the results of the steps completed before it.  The earlier steps must
have their inputs satisfied and their Decider round trips must not
raise (an exception would abort differently); any mix of Continue,
Replan and unparsable replies is allowed. -/
theorem plan_aborts_on_missing_input (fs : Str → Bool) (size : Str → Option Nat)
    (runProc : List Str → Int × Str × Str) (decider : Nat → DeciderOutcome)
    (pre : List Step) (bad : Step) (post : List Step)
    (hpre : ∀ s ∈ pre, inputMissing fs s = false)
    (hdec : ∀ k, k < pre.length → (decider k).isRaised = false)
    (hbad : inputMissing fs bad = true) :
    ∃ attrFin,
      execute_plan fs size runProc decider (pre ++ bad :: post) =
        (.ok (pre.map (stepResult fs size runProc), attrFin),
         pre.map (fun s => Event.spawnedArgv (fullCmd s))) := by
  have h := execute_plan_go_missing fs size runProc decider bad post hbad pre
    (pre ++ bad :: post) 0 [] hpre (fun k hk => by simpa using hdec k hk)
  simpa [execute_plan] using h

/-- Witness for `plan_aborts_on_missing_input`: a two-step plan whose
second step declares the non-existent `missing.mp4`; only step 1 runs
and only its result is returned. -/
theorem plan_aborts_on_missing_input_witness :
    (∀ s ∈ [stepIn], inputMissing fsOnlyIn s = false) ∧
    (∀ k, k < [stepIn].length → (contDecider k).isRaised = false) ∧
    inputMissing fsOnlyIn stepMissing = true ∧
    ∃ attrFin,
      execute_plan fsOnlyIn sizeNone runOk contDecider ([stepIn] ++ stepMissing :: []) =
        (.ok ([stepIn].map (stepResult fsOnlyIn sizeNone runOk), attrFin),
         [stepIn].map (fun s => Event.spawnedArgv (fullCmd s))) :=
  ⟨by decide, by decide, by decide,
   plan_aborts_on_missing_input fsOnlyIn sizeNone runOk contDecider [stepIn] stepMissing []
     (by decide) (by decide) (by decide)⟩

theorem pySplitGo_lower : ∀ (l acc : Str),
    pySplitGo (pyLowerStr l) (pyLowerStr acc) = (pySplitGo l acc).map pyLowerStr := by
  intro l
  induction l with
  | nil =>
    intro acc
    cases acc with
    | nil => rfl
    | cons a as => simp [pySplitGo, pyLowerStr, List.map_reverse]
  | cons c rest ih =>
    intro acc
    simp only [pyLowerStr, List.map_cons, pySplitGo, pyIsSpace_pyLowerChar]
    by_cases hws : pyIsSpace c = true
    · simp only [hws, if_true]
      cases acc with
      | nil => simpa [pyLowerStr] using ih []
      | cons a as =>
        have h0 := ih []
        simp only [pyLowerStr, List.map_nil] at h0
        simp [pySplitGo, pyLowerStr, List.map_reverse, h0]
    · rw [Bool.not_eq_true] at hws
      simp only [hws, Bool.false_eq_true, if_false]
      have := ih (c :: acc)
      simpa [pyLowerStr] using this

theorem pySplit_lower (l : Str) : pySplit (pyLowerStr l) = (pySplit l).map pyLowerStr := by
  have := pySplitGo_lower l []
  simpa [pySplit, pyLowerStr] using this

theorem pySplitGo_allws : ∀ (w : Str), (∀ c ∈ w, pyIsSpace c = true) →
    ∀ acc : Str, pySplitGo w acc = pySplitGo [] acc := by
  intro w
  induction w with
  | nil => intro _ acc; rfl
  | cons c w2 ih =>
    intro hws acc
    have hc : pyIsSpace c = true := hws c (List.mem_cons_self _ _)
    have hw2 : ∀ x ∈ w2, pyIsSpace x = true := fun x hx => hws x (List.mem_cons_of_mem _ hx)
    have h0 : pySplitGo w2 [] = [] := by simpa [pySplitGo] using ih hw2 []
    cases acc with
    | nil => simpa [pySplitGo, hc] using h0
    | cons a as => simp [pySplitGo, hc, h0]

theorem pySplitGo_append_allws {w : Str} (hws : ∀ c ∈ w, pyIsSpace c = true) :
    ∀ (y acc : Str), pySplitGo (y ++ w) acc = pySplitGo y acc := by
  intro y
  induction y with
  | nil => intro acc; exact pySplitGo_allws w hws acc
  | cons c y2 ih =>
    intro acc
    simp only [List.cons_append, pySplitGo]
    by_cases hc : pyIsSpace c = true
    · simp only [hc, if_true]
      cases acc <;> simp [ih]
    · rw [Bool.not_eq_true] at hc
      simp only [hc, Bool.false_eq_true, if_false]
      exact ih (c :: acc)

theorem pySplit_dropWhile : ∀ l : Str, pySplit (l.dropWhile pyIsSpace) = pySplit l := by
  intro l
  induction l with
  | nil => rfl
  | cons c rest ih =>
    rw [List.dropWhile_cons]
    by_cases hc : pyIsSpace c = true
    · rw [if_pos hc, ih]
      simp [pySplit, pySplitGo, hc]
    · rw [if_neg hc]

theorem pySplit_rdropWhile (l : Str) :
    pySplit (List.rdropWhile pyIsSpace l) = pySplit l := by
  have hW : ∀ c ∈ (l.reverse.takeWhile pyIsSpace).reverse, pyIsSpace c = true := by
    intro c hc
    rw [List.mem_reverse] at hc
    exact List.mem_takeWhile_imp hc
  have hdecomp : List.rdropWhile pyIsSpace l ++ (l.reverse.takeWhile pyIsSpace).reverse = l := by
    rw [List.rdropWhile, ← List.reverse_append, List.takeWhile_append_dropWhile,
      List.reverse_reverse]
  have h1 := pySplitGo_append_allws hW (List.rdropWhile pyIsSpace l) []
  rw [hdecomp] at h1
  exact h1.symm

theorem pySplit_strip (l : Str) : pySplit (pyStrip l) = pySplit l := by
  rw [pyStrip_eq, pySplit_rdropWhile, pySplit_dropWhile]

theorem pySplitGo_token {sp : Char} (hsp : pyIsSpace sp = true) :
    ∀ (a acc t : Str), (∀ c ∈ a, pyIsSpace c = false) → a.reverse ++ acc ≠ [] →
      pySplitGo (a ++ sp :: t) acc = (acc.reverse ++ a) :: pySplitGo t [] := by
  intro a
  induction a with
  | nil =>
    intro acc t _ hne
    simp only [List.reverse_nil, List.nil_append] at hne
    cases acc with
    | nil => simp at hne
    | cons x xs => simp [pySplitGo, hsp]
  | cons c a2 ih =>
    intro acc t hnws hne
    have hc : pyIsSpace c = false := hnws c (List.mem_cons_self _ _)
    simp only [List.cons_append, pySplitGo, hc, Bool.false_eq_true, if_false,
      List.append_eq]
    rw [ih (c :: acc) t (fun x hx => hnws x (List.mem_cons_of_mem _ hx)) (by simp)]
    simp

theorem head_pySplit_of_startsWith (tok l : Str)
    (htokws : ∀ c ∈ tok, pyIsSpace c = false) (htokne : tok ≠ [])
    (h : pyStartsWith (tok ++ [' ']) l = true) :
    (pySplit l).head? = some tok := by
  obtain ⟨t, rfl⟩ := (pyStartsWith_iff _ _).1 h
  have h1 := @pySplitGo_token ' ' (by decide) tok [] t htokws (by simpa using htokne)
  rw [List.append_assoc, List.singleton_append]
  unfold pySplit
  rw [h1]
  simp

theorem safe_not_escalation : ∀ b ∈ SAFE_COMMANDS,
    (b == strL "sudo" || b == strL "su" || b == strL "doas") = false := by decide

theorem classifyBase_safe : ∀ b ∈ SAFE_COMMANDS, classifyBase b = (strL "SAFE", []) := by
  decide

theorem classify_command_safe (command w : Str) (rest : List Str)
    (hsplit : pySplit command = w :: rest)
    (hsafe : pyLowerStr w ∈ SAFE_COMMANDS) :
    classify_command command = (strL "SAFE", []) := by
  have hsplit2 : pySplit (pyStrip command) = w :: rest := by
    rw [pySplit_strip]; exact hsplit
  unfold classify_command
  rw [hsplit2]
  simp only [safe_not_escalation _ hsafe, Bool.false_and, Bool.false_eq_true, if_false]
  exact classifyBase_safe _ hsafe

theorem check_root_user_safe (command : Str) (euid : Nat) (w : Str) (rest : List Str)
    (heuid : euid ≠ 0)
    (hsplit : pySplit command = w :: rest)
    (hsafe : pyLowerStr w ∈ SAFE_COMMANDS) :
    check_root_user command euid = (false, []) := by
  have hkey : ∀ tok : Str, (∀ c ∈ tok, pyIsSpace c = false) → tok ≠ [] →
      pyStartsWith (tok ++ [' ']) (pyStrip (pyLowerStr command)) = true →
      pyLowerStr w = tok := by
    intro tok htokws htokne hst
    have h1 := head_pySplit_of_startsWith tok _ htokws htokne hst
    rw [pySplit_strip, pySplit_lower, hsplit] at h1
    simpa using h1
  have hgen : ∀ tok : Str, (∀ c ∈ tok, pyIsSpace c = false) → tok ≠ [] →
      tok ∉ SAFE_COMMANDS →
      pyStartsWith (tok ++ [' ']) (pyStrip (pyLowerStr command)) = false := by
    intro tok htokws htokne htok
    cases hst : pyStartsWith (tok ++ [' ']) (pyStrip (pyLowerStr command)) with
    | false => rfl
    | true =>
      have heq := hkey tok htokws htokne hst
      rw [heq] at hsafe
      exact absurd hsafe htok
  have h1 : pyStartsWith (strL "sudo ") (pyStrip (pyLowerStr command)) = false := by
    have := hgen (strL "sudo") (by decide) (by decide) (by decide)
    simpa using this
  have h2 : pyStartsWith (strL "su ") (pyStrip (pyLowerStr command)) = false := by
    have := hgen (strL "su") (by decide) (by decide) (by decide)
    simpa using this
  have h3 : pyStartsWith (strL "doas ") (pyStrip (pyLowerStr command)) = false := by
    have := hgen (strL "doas") (by decide) (by decide) (by decide)
    simpa using this
  have h0 : (euid == 0) = false := beq_eq_false_iff_ne.mpr heuid
  unfold check_root_user
  simp [h1, h2, h3, h0]

theorem gate_safe (command : Str) (euid : Nat) (w : Str) (rest : List Str)
    (heuid : euid ≠ 0)
    (hsplit : pySplit command = w :: rest)
    (hsafe : pyLowerStr w ∈ SAFE_COMMANDS) :
    check_command_safety command euid = ⟨false, false, []⟩ := by
  unfold check_command_safety
  rw [classify_command_safe command w rest hsplit hsafe,
    check_root_user_safe command euid w rest heuid hsplit hsafe]
  decide

/-- Claim C10: classification and gating look only at the first
whitespace token of the sanitized command (lowercased, with a
`sudo`/`su`/`doas` prefix resolved): whenever that first token lowers to
a member of `SAFE_COMMANDS` and the process is not running as root, the
gate returns `requiresApproval = false`, `isBlocked = false` and an
empty warning, and `execute_shell` spawns the entire sanitized string
through the shell without approval — whatever shell metacharacters and
further commands follow the safe first token. -/
theorem safe_first_token_gates_nothing (cmdStr : Str) (euid : Nat) (timeout : Rat)
    (out err : Str) (code : Int) (t : Rat) (w : Str)
    (heuid : euid ≠ 0)
    (hw : (pySplit (trimMarkdown cmdStr)).head? = some w)
    (hsafe : pyLowerStr w ∈ SAFE_COMMANDS) :
    check_command_safety (trimMarkdown cmdStr) euid = ⟨false, false, []⟩ ∧
    execute_shell (.inl cmdStr) timeout euid (.completed out err code t) =
      (⟨trimMarkdown cmdStr, out, err, code, code == 0, t, false, [], false⟩,
       [.gateChecked (trimMarkdown cmdStr) false false,
        .spawned (trimMarkdown cmdStr)]) := by
  obtain ⟨rest, hsplit⟩ : ∃ rest, pySplit (trimMarkdown cmdStr) = w :: rest := by
    cases hs : pySplit (trimMarkdown cmdStr) with
    | nil => rw [hs] at hw; simp at hw
    | cons x xs =>
      rw [hs, List.head?_cons] at hw
      exact ⟨xs, by rw [Option.some.inj hw]⟩
  have hgate := gate_safe (trimMarkdown cmdStr) euid w rest heuid hsplit hsafe
  refine ⟨hgate, ?_⟩
  simp only [execute_shell, toCommandStr, hgate]
  rfl

/-- Witness for `safe_first_token_gates_nothing`: the first token of
`"echo safe && rm -rf /"` is the SAFE `echo`, so the whole chained
command is gated clean and spawned through the shell. -/
theorem safe_first_token_gates_nothing_witness :
    (1000 : Nat) ≠ 0 ∧
    (pySplit (trimMarkdown (strL "echo safe && rm -rf /"))).head? = some (strL "echo") ∧
    pyLowerStr (strL "echo") ∈ SAFE_COMMANDS ∧
    (check_command_safety (trimMarkdown (strL "echo safe && rm -rf /")) 1000 =
        ⟨false, false, []⟩ ∧
      execute_shell (.inl (strL "echo safe && rm -rf /")) 30 1000 (.completed [] [] 0 1) =
        (⟨trimMarkdown (strL "echo safe && rm -rf /"), [], [], 0, (0 : Int) == 0, 1, false,
          [], false⟩,
         [.gateChecked (trimMarkdown (strL "echo safe && rm -rf /")) false false,
          .spawned (trimMarkdown (strL "echo safe && rm -rf /"))])) :=
  ⟨by decide, by decide, by decide,
   safe_first_token_gates_nothing (strL "echo safe && rm -rf /") 1000 30 [] [] 0 1
     (strL "echo") (by decide) (by decide) (by decide)⟩

end FFAI
